import Mathlib

/-!
Verification development for the blitzdenk agent orchestration engine.

Shallow embedding of the run loop (`src/agent.rs`, `Agent::run`), the tool
dispatch protocol (`ToolArgs::get`, the tool box), the permission-gated
`write`/`edit` tools (`src/tools/write.rs`, `src/tools/edit.rs`), the
runner admission control (`src/tui.rs`, `AgentRunner::start_cycle`) and the
session persistence record (`src/tui.rs`, `SessionState::{save, load}`).

Conventions:
- Rust `HashMap<K, V>` is embedded as an association list `List (K × V)`.
- `serde_json::Value` is embedded as the inductive `JValue`.
- The event channel (`crossbeam` sender) is embedded as an accumulating
  list of events; `send` never fails in the model (the receiver end is
  owned by the foreground for the whole session).
- Real time (the 120 s turn timeout, the 10 s back-off sleep) is embedded
  by the backend outcome alternatives of a turn and by a counter of
  back-off sleeps performed.
-/

namespace Blitzdenk

/-- Embedding of `serde_json::Value`. -/
inductive JValue where
  | null : JValue
  | boolean : Bool → JValue
  | num : Int → JValue
  | str : String → JValue
  | arr : List JValue → JValue
  | obj : List (String × JValue) → JValue

/-- Character-list prefix test (helper for substring search). -/
def isPfx : List Char → List Char → Bool
  | [], _ => true
  | _ :: _, [] => false
  | a :: as, b :: bs => a == b && isPfx as bs

/-- Character-list substring test (helper for `strContains`). -/
def containsSub (pat : List Char) : List Char → Bool
  | [] => isPfx pat []
  | c :: rest => isPfx pat (c :: rest) || containsSub pat rest

/-- Embedding of Rust `str::contains` (substring containment). -/
def strContains (s pat : String) : Bool :=
  containsSub pat.data s.data

/-- Embedding of Rust `str::replacen(old, new, 1)`: replace the first
occurrence of `pat` (the empty pattern matches at position 0). -/
def replOnceL (pat rep : List Char) : List Char → List Char
  | [] => if isPfx pat [] then rep else []
  | c :: rest =>
    if isPfx pat (c :: rest) then rep ++ List.drop pat.length (c :: rest)
    else c :: replOnceL pat rep rest

/-- Fuel-indexed worker for `strReplaceAll` (the fuel keeps the recursion
structural; `strReplaceAll` supplies enough fuel for the whole string,
and the pattern is non-empty there, so fuel never runs out early). -/
def replAllGo (pat rep : List Char) : Nat → List Char → List Char
  | 0, s => s
  | _ + 1, [] => []
  | fuel + 1, c :: rest =>
    if isPfx pat (c :: rest) then rep ++ replAllGo pat rep fuel (List.drop pat.length (c :: rest))
    else c :: replAllGo pat rep fuel rest

/-- Embedding of Rust `str::replace` (all occurrences; the empty pattern
matches at every char boundary, as with `match_indices`). -/
def strReplaceAll (s pat rep : String) : String :=
  if pat.data.isEmpty then
    ⟨rep.data ++ s.data.flatMap (fun c => c :: rep.data)⟩
  else
    ⟨replAllGo pat.data rep.data s.data.length s.data⟩

/-- Embedding of Rust `str::replacen(old, new, 1)` on `String`. -/
def strReplaceOnce (s pat rep : String) : String :=
  ⟨replOnceL pat.data rep.data s.data⟩

/-- `Priority` from `src/agent.rs`. -/
inductive Priority where
  | high | medium | low
deriving DecidableEq

/-- `Status` from `src/agent.rs`. -/
inductive Status where
  | pending | inProgress | completed
deriving DecidableEq

/-- `TodoItem` from `src/agent.rs`. -/
structure TodoItem where
  priority : Priority
  status : Status
  content : String

/-- The task ledger: `HashMap<String, TodoItem>` embedded as an association
list. -/
abbrev Todo := List (String × TodoItem)

/-- `AgentContext::has_open_todos` (`src/agent.rs` lines 299-306): true iff
some entry's status is not `Completed`. -/
def hasOpenTodos (todo : Todo) : Bool :=
  todo.any (fun entry => !(entry.2.status = Status.completed))

/-- `genai::Error`, as far as the run loop inspects it: the
`WebModelCall { model_iden, webc_error }` variant is matched explicitly
(the inner web-client error embedded by its rendered text), every other
variant is handled by the catch-all arm and embedded by its rendered
text. -/
inductive GenaiError where
  | webModelCall (modelIden : String) (webcError : String)
  | otherVariant (desc : String)

/-- Rendered text of a `genai::Error` (its `Display`). -/
def GenaiError.describe : GenaiError → String
  | .webModelCall modelIden webcError => modelIden ++ ": " ++ webcError
  | .otherVariant desc => desc

/-- `AiError` from `src/error.rs` (the variants reachable from the embedded
code). -/
inductive AiError where
  | requestError (e : GenaiError)
  | ioError (msg : String)
  | missingArgument (name : String)
  | jsonError (msg : String)
  | channelDown
  | alreadyRunning
  | tokioRecvError
  | toolFailed (msg : String)

/-- `Display` of `AiError` per the `thiserror` attributes in
`src/error.rs` (transparent variants delegate; `TokioRecErr` delegates to
`oneshot::error::RecvError`, whose message is "channel closed"). -/
def AiError.describe : AiError → String
  | .requestError e => e.describe
  | .ioError msg => msg
  | .missingArgument name => "tool call is missing argument `" ++ name ++ "`"
  | .jsonError msg => msg
  | .channelDown => "the broadcast channel went down"
  | .alreadyRunning => "the agent is already running"
  | .tokioRecvError => "channel closed"
  | .toolFailed msg => msg

/-- `genai::chat::ToolCall`: named invocation with a correlation id and a
JSON argument bag. -/
structure ToolCall where
  callId : String
  fnName : String
  fnArguments : JValue

/-- Roles of `genai::chat::ChatRole`. -/
inductive ChatRole where
  | system | user | assistant | tool
deriving DecidableEq

/-- Message content, as far as the embedded code constructs or inspects it:
plain text, an assistant tool-call batch, or a single tool response
(`genai::chat::ToolResponse`, carrying the originating call id). -/
inductive MessageContent where
  | text (s : String)
  | toolCalls (calls : List ToolCall)
  | toolResponse (callId : String) (content : String)

/-- `genai::chat::ChatMessage`; `options` embeds
`Option<MessageOptions { cache_control }>`: `true` stands for
`Some(MessageOptions { cache_control: Some(CacheControl::Ephemeral) })`
and `false` for `None` (the only two values the code writes). -/
structure ChatMessage where
  role : ChatRole
  content : MessageContent
  options : Bool

/-- `ChatMessage::user`. -/
def ChatMessage.user (s : String) : ChatMessage :=
  ⟨ChatRole.user, MessageContent.text s, false⟩

/-- `ChatMessage::assistant`. -/
def ChatMessage.assistant (s : String) : ChatMessage :=
  ⟨ChatRole.assistant, MessageContent.text s, false⟩

/-- `ChatMessage::system`. -/
def ChatMessage.systemMsg (s : String) : ChatMessage :=
  ⟨ChatRole.system, MessageContent.text s, false⟩

/-- `ChatMessage::from(Vec<ToolCall>)`: the assistant tool-call batch. -/
def ChatMessage.ofToolCalls (calls : List ToolCall) : ChatMessage :=
  ⟨ChatRole.assistant, MessageContent.toolCalls calls, false⟩

/-- `ChatMessage::from(ToolResponse::new(call_id, content))`. -/
def ChatMessage.ofToolResponse (callId content : String) : ChatMessage :=
  ⟨ChatRole.tool, MessageContent.toolResponse callId content, false⟩

/-- A message stripped of its cache-hint options (role and content only). -/
def ChatMessage.stripOpts (m : ChatMessage) : ChatRole × MessageContent :=
  (m.role, m.content)

/-- Token usage of one backend turn (`genai` usage, i32 counters). -/
structure Usage where
  completionTokens : Option Int
  promptTokens : Option Int

/-- `genai::chat::ChatResponse`, as far as the loop consumes it:
`res.texts()` and `res.into_tool_calls()` plus usage. -/
structure ChatResponse where
  texts : List String
  toolCalls : List ToolCall
  usage : Usage

/-- `AgentEvent` from `src/agent.rs`. Permission requests are raised by
tool handlers, which the run-loop model keeps abstract, so the variant
carries just the request message text. -/
inductive AgentEvent where
  | message (msg : ChatMessage)
  | permission (msg : String)
  | tokenCost (n : Int)
  | timeout
  | rateLimit

/-- `ToolArgs` from `src/agent.rs`: the parsed `HashMap<String, Value>`
argument bag. -/
abbrev ToolArgs := List (String × JValue)

/-- Key lookup in the argument bag (`self.0.get(key)`). -/
def ToolArgs.find (args : ToolArgs) (key : String) : Option JValue :=
  (args.find? (fun kv => kv.1 == key)).map (·.2)

/-- `ToolArgs::get::<String>` (`src/agent.rs` lines 247-258): a missing key
fails with `MissingArgument(key)`; a present key is deserialized, and a
value that is not a JSON string fails with a serde `JsonError`. -/
def ToolArgs.getString (args : ToolArgs) (key : String) : Except AiError String :=
  match args.find key with
  | none => Except.error (AiError.missingArgument key)
  | some (JValue.str s) => Except.ok s
  | some _ => Except.error (AiError.jsonError "invalid type: expected a string")

/-- `ToolArgs::get::<bool>`: same shape as `getString` at type `bool`. -/
def ToolArgs.getBool (args : ToolArgs) (key : String) : Except AiError Bool :=
  match args.find key with
  | none => Except.error (AiError.missingArgument key)
  | some (JValue.boolean b) => Except.ok b
  | some _ => Except.error (AiError.jsonError "invalid type: expected a boolean")

/-- A tool handler (`ToolFn`). The real handler receives the full
`AgentContext` (event sender, cwd, shared todo list) and runs in the async
runtime; the run-loop model keeps the handler abstract as a pure function
of the call id, the parsed argument bag and the todo ledger, returning its
result together with the possibly updated ledger. Side effects a handler
performs outside this state (file writes, its own events) are outside the
run-loop state. -/
def ToolFn := String → ToolArgs → Todo → Except AiError ChatMessage × Todo

/-- The `ToolBox` (`HashMap<String, ToolFn>` as an association list). -/
abbrev ToolBox := List (String × ToolFn)

/-- `self.tool_box.get(&name)`. -/
def ToolBox.find (tb : ToolBox) (name : String) : Option ToolFn :=
  (tb.find? (fun kv => kv.1 == name)).map (·.2)

/-- `serde_json::from_value::<HashMap<String, Value>>`: succeeds exactly on
a JSON object. -/
def parseArgMap : JValue → Option ToolArgs
  | JValue.obj kvs => some kvs
  | _ => none

/-- Worker for `Agent::set_caching` (`src/agent.rs` lines 70-92): the two
imperative loops clear every message's options and then mark the first two
and the last two messages with the ephemeral cache hint; `i` is the index
of the head of the remaining list and `n` the total length. -/
def setCachingGo (n : Nat) : Nat → List ChatMessage → List ChatMessage
  | _, [] => []
  | i, m :: rest =>
    { m with options := decide (i < 2) || decide (i + 2 ≥ n) } :: setCachingGo n (i + 1) rest

/-- `Agent::set_caching`: clear all cache hints, then hint the first two
and the last two messages. -/
def setCaching (msgs : List ChatMessage) : List ChatMessage :=
  setCachingGo msgs.length 0 msgs

/-- One dispatch of the per-call body in `Agent::run` (lines 183-196):
`self.tool_box.get(&call.fn_name).unwrap()` panics (`none`) on an
unregistered name; `serde_json::from_value(...).unwrap()` panics on an
argument bag that is not a JSON object; otherwise the handler runs and an
`Err` result is converted into a `ToolResponse` message carrying the
error's rendered text. -/
def dispatchOne (tb : ToolBox) (call : ToolCall) (todo : Todo) :
    Option (ChatMessage × Todo) :=
  match tb.find call.fnName with
  | none => none
  | some f =>
    match parseArgMap call.fnArguments with
    | none => none
    | some args =>
      match f call.callId args todo with
      | (Except.ok msg, todo') => some (msg, todo')
      | (Except.error e, todo') =>
        some (ChatMessage.ofToolResponse call.callId e.describe, todo')

/-- The `for call in res.into_tool_calls()` loop: calls are processed
strictly in order, each producing one appended message before the next
handler is invoked (the next handler sees the todo state left by the
previous call). The `Bool` is true when an `unwrap` panicked; the
returned message list then holds the results appended before the panic. -/
def resolveCalls (tb : ToolBox) : List ToolCall → Todo → List ChatMessage × Todo × Bool
  | [], todo => ([], todo, false)
  | call :: rest, todo =>
    match dispatchOne tb call todo with
    | none => ([], todo, true)
    | some (msg, todo') =>
      let r := resolveCalls tb rest todo'
      (msg :: r.1, r.2)

/-- The synthetic continuation message of `Agent::run` (lines 204-206). -/
def continueNudge : ChatMessage :=
  ChatMessage.user "you have unfinished work on your todo list. please update the list according to your task progression."

/-- The rate-limit signature test of `Agent::run` (line 137):
`err_str.contains("rate_limit") || err_str.contains("rate limit")`. -/
def isRateLimitText (s : String) : Bool :=
  strContains s "rate_limit" || strContains s "rate limit"

/-- Token cost accumulation of `Agent::run` (lines 154-162). -/
def tokenCostOf (u : Usage) : Int :=
  u.completionTokens.getD 0 + u.promptTokens.getD 0

/-- The mutable state of one execution of `Agent::run`:
`storedChat` is `self.chat`, `chat` the local working copy cloned at
entry, `running` is `self.running`, `todo` the shared ledger, `events`
the messages sent over the event channel so far, and `sleeps` counts the
back-off sleeps (`sleep(Duration::from_secs(10))`) performed. -/
structure LoopSt where
  storedChat : List ChatMessage
  chat : List ChatMessage
  running : Bool
  todo : Todo
  events : List AgentEvent
  sleeps : Nat

/-- Outcome of the three-way `tokio::select!` race of one turn. -/
inductive BackendOutcome where
  | ok (resp : ChatResponse)
  | err (e : GenaiError)
  | timeout
  | abort

/-- Result of one iteration of the `loop` in `Agent::run`. -/
inductive StepRes where
  | next (s : LoopSt)
  | finished (s : LoopSt)
  | fatal (e : AiError) (s : LoopSt)
  | panicked (s : LoopSt)

/-- One iteration of the `loop` in `Agent::run` (lines 108-211), given the
winner of the select race. -/
def step (tb : ToolBox) (s0 : LoopSt) (o : BackendOutcome) : StepRes :=
  let s := { s0 with storedChat := setCaching s0.storedChat }
  match o with
  | BackendOutcome.timeout =>
    StepRes.finished { s with events := s.events ++ [AgentEvent.timeout] }
  | BackendOutcome.abort => StepRes.finished s
  | BackendOutcome.err e =>
    let s := { s with running := false }
    match e with
    | GenaiError.webModelCall modelIden webcError =>
      if isRateLimitText webcError then
        StepRes.next
          { s with events := s.events ++ [AgentEvent.rateLimit], sleeps := s.sleeps + 1 }
      else
        StepRes.fatal
          (AiError.requestError (GenaiError.webModelCall modelIden webcError)) s
    | anyOther => StepRes.fatal (AiError.requestError anyOther) s
  | BackendOutcome.ok res =>
    let cost := tokenCostOf res.usage
    let s :=
      if cost > 0 then { s with events := s.events ++ [AgentEvent.tokenCost cost] } else s
    let textMsgs := res.texts.map ChatMessage.assistant
    let s :=
      { s with
        chat := s.chat ++ textMsgs
        events := s.events ++ textMsgs.map AgentEvent.message }
    let s :=
      if res.toolCalls.isEmpty then s
      else
        let batch := ChatMessage.ofToolCalls res.toolCalls
        { s with
          chat := s.chat ++ [batch]
          events := s.events ++ [AgentEvent.message batch] }
    let r := resolveCalls tb res.toolCalls s.todo
    let s :=
      { s with
        chat := s.chat ++ r.1
        events := s.events ++ r.1.map AgentEvent.message
        todo := r.2.1 }
    if r.2.2 then StepRes.panicked s
    else if res.toolCalls.isEmpty then
      if hasOpenTodos r.2.1 then
        StepRes.next { s with chat := s.chat ++ [continueNudge] }
      else StepRes.finished s
    else StepRes.next s

/-- Terminal outcome of `Agent::run`'s loop, driven by a finite script of
backend outcomes (one per executed turn). -/
inductive RunOutcome where
  | finishedOk (s : LoopSt)
  | fatal (e : AiError) (s : LoopSt)
  | panicked (s : LoopSt)
  | scriptExhausted (s : LoopSt)

/-- The epilogue after `break` (lines 213-215): the working copy replaces
the stored conversation and the running flag is cleared. -/
def commit (s : LoopSt) : LoopSt :=
  { s with storedChat := s.chat, running := false }

/-- The `loop` of `Agent::run`, consuming one scripted backend outcome per
iteration. A `break` leads to the commit epilogue; an error `return`
leaves the loop state as it stands (no commit). -/
def runLoop (tb : ToolBox) : LoopSt → List BackendOutcome → RunOutcome
  | s, [] => RunOutcome.scriptExhausted s
  | s, o :: rest =>
    match step tb s o with
    | StepRes.next s' => runLoop tb s' rest
    | StepRes.finished s' => RunOutcome.finishedOk (commit s')
    | StepRes.fatal e s' => RunOutcome.fatal e s'
    | StepRes.panicked s' => RunOutcome.panicked s'

/-- The `Agent` session fields the run loop touches (`src/agent.rs` lines
19-26); the tool box is passed separately as a parameter of the model. -/
structure Agent where
  chat : List ChatMessage
  model : String
  running : Bool
  todo : Todo

/-- Result of `Agent::run`: either the entry guard rejected the start with
`AlreadyRunning` (leaving the agent untouched), or the loop ran. -/
inductive AgentRunResult where
  | alreadyRunning (a : Agent)
  | ran (r : RunOutcome)

/-- The loop state at entry (lines 98-101): the running flag is set and
the working copy is cloned from the stored conversation. -/
def Agent.initLoopSt (a : Agent) : LoopSt :=
  { storedChat := a.chat, chat := a.chat, running := true, todo := a.todo,
    events := [], sleeps := 0 }

/-- `Agent::run` (lines 94-216): the entry guard plus the loop. -/
def Agent.runFn (tb : ToolBox) (a : Agent) (script : List BackendOutcome) :
    AgentRunResult :=
  if a.running then AgentRunResult.alreadyRunning a
  else AgentRunResult.ran (runLoop tb a.initLoopSt script)

/-- Commands of the runner's background task (`src/tui.rs`). -/
inductive AgentCmd where
  | runCmd

/-- `AgentRunner::start_cycle` (`src/tui.rs` lines 503-510): when the
runner's state flag is set the start is rejected with `AlreadyRunning`
and nothing is enqueued on the command channel; otherwise one `Run`
command is enqueued. -/
def startCycle (stateFlag : Bool) (queue : List AgentCmd) :
    Except AiError Unit × List AgentCmd :=
  if stateFlag then (Except.error AiError.alreadyRunning, queue)
  else (Except.ok (), queue ++ [AgentCmd.runCmd])

/-- A flat file system: path to content (association list). -/
abbrev Fs := List (String × String)

/-- `tokio::fs::read_to_string`: `none` when the path does not exist. -/
def Fs.readF (fs : Fs) (p : String) : Option String :=
  (fs.find? (fun e => e.1 == p)).map (·.2)

/-- `tokio::fs::write`: create or overwrite. -/
def Fs.writeF (fs : Fs) (p c : String) : Fs :=
  if (fs.find? (fun e => e.1 == p)).isSome then
    fs.map (fun e => if e.1 == p then (p, c) else e)
  else fs ++ [(p, c)]

/-- Outcome of running a permission-gated tool: its returned result, the
file system afterwards, and the events it sent. -/
structure ToolOutcome where
  result : Except AiError ChatMessage
  fs : Fs
  events : List AgentEvent

/-- `Write::run` (`src/tools/write.rs` lines 46-66). The permission
round-trip is embedded by `reply`: the foreground's answer on the oneshot
channel, `none` when the responder was dropped without replying (then
`rx.await?` fails with the `RecvError` of the closed channel). -/
def writeToolRun (toolId : String) (args : ToolArgs) (fs : Fs) (reply : Option Bool) :
    ToolOutcome :=
  match args.getString "path" with
  | Except.error e => ⟨Except.error e, fs, []⟩
  | Except.ok path =>
    match args.getString "content" with
    | Except.error e => ⟨Except.error e, fs, []⟩
    | Except.ok content =>
      let reqMsg :=
        "The agent wants to create `" ++ path ++ "`:\n\n```diff\n" ++ content ++ "\n```"
      match reply with
      | none =>
        ⟨Except.error AiError.tokioRecvError, fs, [AgentEvent.permission reqMsg]⟩
      | some false =>
        ⟨Except.error (AiError.toolFailed "user declined the edit request"), fs,
          [AgentEvent.permission reqMsg]⟩
      | some true =>
        ⟨Except.ok
            (ChatMessage.ofToolResponse toolId "\x7b\"result\":\"file was edited\"\x7d"),
          fs.writeF path content, [AgentEvent.permission reqMsg]⟩

/-- Rendering of `diffy::DiffOptions::default().create_patch(old, new)`.
The diffy crate is external to the repository; its output feeds only the
human-readable permission message, which no claim inspects, so the model
stands in for the rendering with a simple marker. -/
def createPatch (oldC newC : String) : String :=
  "-" ++ oldC ++ "\n+" ++ newC

/-- `Edit::run` (`src/tools/edit.rs` lines 56-93): extract the arguments
(`replace_all` defaults to false via `unwrap_or_default`), read the file
(a missing file fails with the propagated io error), require the needle
to occur, compute the replacement, round-trip through the permission
gate, and only then write. -/
def editToolRun (toolId : String) (args : ToolArgs) (fs : Fs) (reply : Option Bool) :
    ToolOutcome :=
  match args.getString "path" with
  | Except.error e => ⟨Except.error e, fs, []⟩
  | Except.ok path =>
    match args.getString "old_string" with
    | Except.error e => ⟨Except.error e, fs, []⟩
    | Except.ok oldStr =>
      match args.getString "new_string" with
      | Except.error e => ⟨Except.error e, fs, []⟩
      | Except.ok newStr =>
        let replaceAll := (args.getBool "replace_all").toOption.getD false
        match fs.readF path with
        | none =>
          ⟨Except.error (AiError.ioError "No such file or directory (os error 2)"), fs, []⟩
        | some oldContent =>
          if !strContains oldContent oldStr then
            ⟨Except.error
                (AiError.toolFailed
                  "the `old_string` argument cannot be found in the original file!"),
              fs, []⟩
          else
            let newContent :=
              if replaceAll then strReplaceAll oldContent oldStr newStr
              else strReplaceOnce oldContent oldStr newStr
            let patch := createPatch oldContent newContent
            let reqMsg :=
              "The agent wants to edit `" ++ path ++ "`:\n\n```diff\n" ++ patch ++ "\n```"
            match reply with
            | none =>
              ⟨Except.error AiError.tokioRecvError, fs, [AgentEvent.permission reqMsg]⟩
            | some false =>
              ⟨Except.error (AiError.toolFailed "user declined the edit request"), fs,
                [AgentEvent.permission reqMsg]⟩
            | some true =>
              ⟨Except.ok (ChatMessage.ofToolResponse toolId "file was edited"),
                fs.writeF path newContent, [AgentEvent.permission reqMsg]⟩

/-- `TuiMessage` (`src/tui.rs` lines 33-37); `state` embeds
`MessageState { collapse }` (`MessageState::default()` is `false`). -/
structure TuiMessage where
  message : ChatMessage
  state : Bool

/-- `SessionSaveState` (`src/tui.rs` lines 69-77): the persisted record.
The JSON encoding and the on-disk path are the external serde/fs
boundary; the round-trip claim lives at the level of this structural
record (spec section 6 calls it a format-agnostic structural record). -/
structure SessionSaveState where
  chat : List ChatMessage
  todo : Todo
  model : String
  tokenCost : Int
  moneyCost : Option Float
  input : List String

/-- The fields of `SessionState` that `save`/`load` produce and consume
(`src/tui.rs` lines 39-50): the rendered message list, the text area
lines, the agent's conversation and model behind the runner, the ledger,
and the accumulated costs. -/
structure Session where
  messages : List TuiMessage
  textarea : List String
  agentChat : List ChatMessage
  agentModel : String
  todo : Todo
  tokenCost : Int
  moneyCost : Option Float

/-- `SessionState::save` (`src/tui.rs` lines 95-120), up to the external
JSON/fs boundary: the record it persists. -/
def saveSession (s : Session) : SessionSaveState :=
  { input := s.textarea
    chat := s.agentChat
    todo := s.todo
    model := s.agentModel
    tokenCost := s.tokenCost
    moneyCost := s.moneyCost }

/-- `tui_textarea::TextArea::new(lines)`: a text area always holds at
least one line, so an empty vector is normalized to one empty line. -/
def textAreaNew (lines : List String) : List String :=
  if lines.isEmpty then [""] else lines

/-- `SessionState::load` (`src/tui.rs` lines 365-407), up to the external
JSON/fs boundary: rebuild the session from a persisted record (message
widgets from the saved chat with default state, a fresh runner whose
agent receives the saved model, chat and ledger, and the costs and the
pending input carried over). -/
def loadSession (st : SessionSaveState) : Session :=
  { messages := st.chat.map (fun m => ⟨m, false⟩)
    textarea := textAreaNew st.input
    agentChat := st.chat
    agentModel := st.model
    todo := st.todo
    tokenCost := st.tokenCost
    moneyCost := st.moneyCost }

/-- The loop state carried by a step result. -/
def StepRes.state : StepRes → LoopSt
  | StepRes.next s => s
  | StepRes.finished s => s
  | StepRes.fatal _ s => s
  | StepRes.panicked s => s

/-- Whether the select race delivered a backend-call failure. -/
def BackendOutcome.isErr : BackendOutcome → Bool
  | BackendOutcome.err _ => true
  | _ => false

/-- Every handler in the box returns, on success, a tool-response message
bearing the call id it was invoked with. Each concrete tool of the
repository builds its success message via `ToolResponse::new(tool_id, …)`,
so every registered handler satisfies this. -/
def idFaithful (tb : ToolBox) : Prop :=
  ∀ name f, tb.find name = some f →
    ∀ id args todo msg todo', f id args todo = (Except.ok msg, todo') →
      ∃ c, msg = ChatMessage.ofToolResponse id c

/-- Every call in the list names a registered tool and carries a JSON
object as its argument bag (the conditions under which the two `unwrap`s
of the dispatch loop cannot fire). -/
def callsDispatchable (tb : ToolBox) (calls : List ToolCall) : Prop :=
  ∀ call ∈ calls,
    (tb.find call.fnName).isSome = true ∧ (parseArgMap call.fnArguments).isSome = true

/- Concrete fixtures used by witnesses and counterexamples. -/

/-- A registered handler that answers every call with a tool response
bearing its call id. -/
def echoFn : ToolFn := fun id _ todo => (Except.ok (ChatMessage.ofToolResponse id "done"), todo)

/-- A one-entry tool box. -/
def tb1 : ToolBox := [("echo", echoFn)]

/-- A call to the registered tool. -/
def call1 : ToolCall := ⟨"id1", "echo", JValue.obj []⟩

/-- A second call to the registered tool. -/
def call2 : ToolCall := ⟨"id2", "echo", JValue.obj []⟩

/-- A turn response carrying two tool calls. -/
def res1 : ChatResponse := ⟨["working"], [call1, call2], ⟨none, none⟩⟩

/-- A turn response with no tool calls and one text. -/
def resText : ChatResponse := ⟨["hi"], [], ⟨none, none⟩⟩

/-- A turn response whose single call names an unregistered tool. -/
def resUnknown : ChatResponse := ⟨[], [⟨"id9", "nope", JValue.obj []⟩], ⟨none, none⟩⟩

/-- A turn response with two tool calls of which only the first names a
registered tool. -/
def resPartial : ChatResponse :=
  ⟨[], [call1, ⟨"id9", "nope", JValue.obj []⟩], ⟨none, none⟩⟩

/-- A ledger with one open item. -/
def openTodo : Todo := [("t1", ⟨Priority.high, Status.pending, "task"⟩)]

/-- A ledger whose single item is completed. -/
def doneTodo : Todo := [("t1", ⟨Priority.high, Status.completed, "task"⟩)]

/-- A small concrete entry conversation. -/
def entryChat : List ChatMessage := [ChatMessage.systemMsg "sys", ChatMessage.user "hello"]

/-- A concrete loop state mid-run (running flag set, empty ledger). -/
def st0 : LoopSt := ⟨entryChat, entryChat, true, [], [], 0⟩

/-- A concrete loop state mid-run with an open ledger item. -/
def stOpen : LoopSt := ⟨entryChat, entryChat, true, openTodo, [], 0⟩

/-- A concrete idle agent with an open ledger item. -/
def agent4 : Agent := ⟨entryChat, "m", false, openTodo⟩

/-- A script: one successful quiet turn (auto-continued because the ledger
is open), then a fatal backend failure. -/
def script4 : List BackendOutcome :=
  [BackendOutcome.ok resText, BackendOutcome.err (GenaiError.otherVariant "boom")]

/-- Argument bag for the write tool fixture. -/
def argsW : ToolArgs := [("path", JValue.str "/tmp/f.txt"), ("content", JValue.str "hello")]

/-- Argument bag for the edit tool fixture. -/
def argsE : ToolArgs :=
  [("path", JValue.str "/tmp/f.txt"), ("old_string", JValue.str "hello"),
   ("new_string", JValue.str "bye")]

/-- A file system holding the edit fixture's target file. -/
def fs1 : Fs := [("/tmp/f.txt", "hello world")]

/-- A concrete session with pending input. -/
def session1 : Session :=
  ⟨[⟨ChatMessage.user "hello", false⟩], ["draft"], entryChat, "m", openTodo, 42, none⟩

/-- A concrete agent whose running flag is already set. -/
def agentBusy : Agent := ⟨entryChat, "m", true, openTodo⟩

/-- A script of a single successful tool-calling turn (the run is still in
progress when the script ends). -/
def script10 : List BackendOutcome := [BackendOutcome.ok res1]

/- Helper lemmas. -/

theorem setCachingGo_strip (n : Nat) : ∀ (i : Nat) (l : List ChatMessage),
    (setCachingGo n i l).map ChatMessage.stripOpts = l.map ChatMessage.stripOpts := by
  intro i l
  induction l generalizing i with
  | nil => rfl
  | cons m rest ih => simp [setCachingGo, ChatMessage.stripOpts, ih]

theorem setCaching_strip (l : List ChatMessage) :
    (setCaching l).map ChatMessage.stripOpts = l.map ChatMessage.stripOpts :=
  setCachingGo_strip l.length 0 l

theorem step_stored (tb : ToolBox) (s : LoopSt) (o : BackendOutcome) :
    (step tb s o).state.storedChat.map ChatMessage.stripOpts
      = s.storedChat.map ChatMessage.stripOpts := by
  cases o with
  | timeout => simp [step, StepRes.state, setCaching_strip]
  | abort => simp [step, StepRes.state, setCaching_strip]
  | err e =>
    cases e with
    | webModelCall mi we =>
      by_cases h : isRateLimitText we = true
      · simp [step, h, StepRes.state, setCaching_strip]
      · simp [step, h, StepRes.state, setCaching_strip]
    | otherVariant d => simp [step, StepRes.state, setCaching_strip]
  | ok res =>
    simp only [step]
    split <;> split <;> split <;> (try split) <;> simp [StepRes.state, setCaching_strip]

theorem step_stored_next (tb : ToolBox) (s : LoopSt) (o : BackendOutcome) (s' : LoopSt)
    (h : step tb s o = StepRes.next s') :
    s'.storedChat.map ChatMessage.stripOpts = s.storedChat.map ChatMessage.stripOpts := by
  have h1 := step_stored tb s o
  rw [h] at h1
  exact h1

theorem step_stored_fatal (tb : ToolBox) (s : LoopSt) (o : BackendOutcome) (e : AiError)
    (s' : LoopSt) (h : step tb s o = StepRes.fatal e s') :
    s'.storedChat.map ChatMessage.stripOpts = s.storedChat.map ChatMessage.stripOpts := by
  have h1 := step_stored tb s o
  rw [h] at h1
  exact h1

theorem step_stored_panicked (tb : ToolBox) (s : LoopSt) (o : BackendOutcome) (s' : LoopSt)
    (h : step tb s o = StepRes.panicked s') :
    s'.storedChat.map ChatMessage.stripOpts = s.storedChat.map ChatMessage.stripOpts := by
  have h1 := step_stored tb s o
  rw [h] at h1
  exact h1

theorem runLoop_stored (tb : ToolBox) :
    ∀ (script : List BackendOutcome) (s : LoopSt),
      (∀ e s', runLoop tb s script = RunOutcome.fatal e s' →
        s'.storedChat.map ChatMessage.stripOpts = s.storedChat.map ChatMessage.stripOpts) ∧
      (∀ s', runLoop tb s script = RunOutcome.panicked s' →
        s'.storedChat.map ChatMessage.stripOpts = s.storedChat.map ChatMessage.stripOpts) ∧
      (∀ s', runLoop tb s script = RunOutcome.scriptExhausted s' →
        s'.storedChat.map ChatMessage.stripOpts = s.storedChat.map ChatMessage.stripOpts) ∧
      (∀ s', runLoop tb s script = RunOutcome.finishedOk s' →
        s'.storedChat = s'.chat ∧ s'.running = false) := by
  intro script
  induction script with
  | nil =>
    intro s
    refine ⟨?_, ?_, ?_, ?_⟩
    · intro e s' h; simp only [runLoop] at h; cases h
    · intro s' h; simp only [runLoop] at h; cases h
    · intro s' h; simp only [runLoop] at h; cases h; rfl
    · intro s' h; simp only [runLoop] at h; cases h
  | cons o rest ih =>
    intro s
    simp only [runLoop]
    cases hstep : step tb s o with
    | next s1 =>
      obtain ⟨i1, i2, i3, i4⟩ := ih s1
      have hs := step_stored_next tb s o s1 hstep
      exact ⟨fun e s' h => (i1 e s' h).trans hs,
        fun s' h => (i2 s' h).trans hs,
        fun s' h => (i3 s' h).trans hs, i4⟩
    | finished s1 =>
      refine ⟨?_, ?_, ?_, ?_⟩
      · intro e s' h; cases h
      · intro s' h; cases h
      · intro s' h; cases h
      · intro s' h
        cases h
        simp [commit]
    | fatal e1 s1 =>
      refine ⟨?_, ?_, ?_, ?_⟩
      · intro e s' h
        cases h
        exact step_stored_fatal tb s o e1 s1 hstep
      · intro s' h; cases h
      · intro s' h; cases h
      · intro s' h; cases h
    | panicked s1 =>
      refine ⟨?_, ?_, ?_, ?_⟩
      · intro e s' h; cases h
      · intro s' h
        cases h
        exact step_stored_panicked tb s o s1 hstep
      · intro s' h; cases h
      · intro s' h; cases h

theorem dispatchOne_total (tb : ToolBox) (call : ToolCall) (todo : Todo)
    (hf : (tb.find call.fnName).isSome = true)
    (hp : (parseArgMap call.fnArguments).isSome = true) :
    ∃ msg todo1, dispatchOne tb call todo = some (msg, todo1) := by
  obtain ⟨f, hf'⟩ := Option.isSome_iff_exists.mp hf
  obtain ⟨args, hp'⟩ := Option.isSome_iff_exists.mp hp
  cases hrun : f call.callId args todo with
  | mk r todo1 =>
    cases r with
    | ok msg => exact ⟨msg, todo1, by simp [dispatchOne, hf', hp', hrun]⟩
    | error e =>
      exact ⟨ChatMessage.ofToolResponse call.callId e.describe, todo1, by
        simp [dispatchOne, hf', hp', hrun]⟩

theorem resolveCalls_cons (tb : ToolBox) (call : ToolCall) (rest : List ToolCall)
    (todo : Todo) (msg : ChatMessage) (todo1 : Todo)
    (h : dispatchOne tb call todo = some (msg, todo1)) :
    resolveCalls tb (call :: rest) todo =
      (msg :: (resolveCalls tb rest todo1).1, (resolveCalls tb rest todo1).2) := by
  simp [resolveCalls, h]

theorem resolveCalls_ok (tb : ToolBox) (hid : idFaithful tb) :
    ∀ (calls : List ToolCall) (todo : Todo), callsDispatchable tb calls →
      (resolveCalls tb calls todo).2.2 = false ∧
      List.Forall₂ (fun (call : ToolCall) (msg : ChatMessage) =>
        ∃ c, msg = ChatMessage.ofToolResponse call.callId c)
        calls (resolveCalls tb calls todo).1 := by
  intro calls
  induction calls with
  | nil => exact fun todo _ => ⟨rfl, List.Forall₂.nil⟩
  | cons call rest ih =>
    intro todo hd
    obtain ⟨hf, hp⟩ := hd call (List.mem_cons_self _ _)
    obtain ⟨f, hf'⟩ := Option.isSome_iff_exists.mp hf
    obtain ⟨args, hp'⟩ := Option.isSome_iff_exists.mp hp
    have hrest : callsDispatchable tb rest := fun c hc => hd c (List.mem_cons_of_mem _ hc)
    cases hrun : f call.callId args todo with
    | mk r todo1 =>
      obtain ⟨ihb, ihf⟩ := ih todo1 hrest
      cases r with
      | ok msg =>
        obtain ⟨c, hc⟩ := hid call.fnName f hf' call.callId args todo msg todo1 hrun
        have hdisp : dispatchOne tb call todo = some (msg, todo1) := by
          simp [dispatchOne, hf', hp', hrun]
        rw [resolveCalls_cons tb call rest todo msg todo1 hdisp]
        exact ⟨ihb, List.Forall₂.cons ⟨c, hc⟩ ihf⟩
      | error e =>
        have hdisp : dispatchOne tb call todo
            = some (ChatMessage.ofToolResponse call.callId e.describe, todo1) := by
          simp [dispatchOne, hf', hp', hrun]
        rw [resolveCalls_cons tb call rest todo _ todo1 hdisp]
        exact ⟨ihb, List.Forall₂.cons ⟨e.describe, rfl⟩ ihf⟩

/-- C1 counterexample: a successful backend turn carrying n = 2 tool
calls of which the second names an unregistered tool appends the batch
message and then only one tool-result message before the dispatch
`unwrap` (`src/agent.rs` line 184) panics the run loop — fewer than n
results, against the claim's "exactly n tool-result messages" for every
successful turn with n ≥ 1 calls. -/
theorem c1_counterexample :
    resPartial.toolCalls.length = 2 ∧
    (resolveCalls tb1 resPartial.toolCalls st0.todo).1.length = 1 ∧
    (resolveCalls tb1 resPartial.toolCalls st0.todo).2.2 = true ∧
    ∃ s', step tb1 st0 (BackendOutcome.ok resPartial) = StepRes.panicked s' ∧
      s'.chat = st0.chat ++ [ChatMessage.ofToolCalls resPartial.toolCalls,
        ChatMessage.ofToolResponse "id1" "done"] :=
  ⟨rfl, rfl, rfl, _, rfl, rfl⟩

/-- C1 (amended): for every successful backend turn whose response
carries n ≥ 1 tool calls, *each naming a registered tool with an object
argument bag* (so that the dispatch `unwrap`s cannot fire; a turn
violating this panics the run loop mid-batch, keeping the results
appended before the panic), and with handlers that tag their success
responses with the call id, as every tool of the repository does: the
loop appends exactly one assistant tool-call batch message followed by
exactly n tool-result messages, one per call identifier, in call order,
each independently produced from its own handler outcome (success, or
the handler error rendered as a tool-response payload); and a later call
is dispatched only against the ledger state left by the previous call,
whose result message already heads the appended batch. -/
theorem c1_tool_result_batch (tb : ToolBox) (s : LoopSt) (res : ChatResponse)
    (hne : res.toolCalls ≠ [])
    (hd : callsDispatchable tb res.toolCalls)
    (hid : idFaithful tb) :
    ∃ msgs todo1 s',
      resolveCalls tb res.toolCalls s.todo = (msgs, todo1, false) ∧
      List.Forall₂ (fun (call : ToolCall) (msg : ChatMessage) =>
        ∃ c, msg = ChatMessage.ofToolResponse call.callId c) res.toolCalls msgs ∧
      msgs.length = res.toolCalls.length ∧
      step tb s (BackendOutcome.ok res) = StepRes.next s' ∧
      s'.chat = s.chat ++ res.texts.map ChatMessage.assistant
        ++ [ChatMessage.ofToolCalls res.toolCalls] ++ msgs ∧
      (∀ call rest, res.toolCalls = call :: rest →
        ∃ msg todoAfter, dispatchOne tb call s.todo = some (msg, todoAfter) ∧
          msgs = msg :: (resolveCalls tb rest todoAfter).1) := by
  obtain ⟨hpan, hall⟩ := resolveCalls_ok tb hid res.toolCalls s.todo hd
  have hne' : res.toolCalls.isEmpty = false := by
    cases h : res.toolCalls with
    | nil => exact absurd h hne
    | cons a l => rfl
  have hres : resolveCalls tb res.toolCalls s.todo
      = ((resolveCalls tb res.toolCalls s.todo).1,
          (resolveCalls tb res.toolCalls s.todo).2.1, false) := by
    rw [← hpan]
  have hseq : ∀ call rest, res.toolCalls = call :: rest →
      ∃ msg todoAfter, dispatchOne tb call s.todo = some (msg, todoAfter) ∧
        (resolveCalls tb res.toolCalls s.todo).1
          = msg :: (resolveCalls tb rest todoAfter).1 := by
    intro call rest hcr
    obtain ⟨hfp, hpp⟩ := hd call (by rw [hcr]; exact List.mem_cons_self _ _)
    obtain ⟨msg, todoAfter, hdisp⟩ := dispatchOne_total tb call s.todo hfp hpp
    exact ⟨msg, todoAfter, hdisp, by
      rw [hcr, resolveCalls_cons tb call rest s.todo msg todoAfter hdisp]⟩
  have hstepex : ∃ s', step tb s (BackendOutcome.ok res) = StepRes.next s' ∧
      s'.chat = s.chat ++ res.texts.map ChatMessage.assistant
        ++ [ChatMessage.ofToolCalls res.toolCalls]
        ++ (resolveCalls tb res.toolCalls s.todo).1 := by
    by_cases hc : tokenCostOf res.usage > 0
    · refine ⟨{ storedChat := setCaching s.storedChat
                chat := s.chat ++ (List.map ChatMessage.assistant res.texts ++
                  ChatMessage.ofToolCalls res.toolCalls
                    :: (resolveCalls tb res.toolCalls s.todo).1)
                running := s.running
                todo := (resolveCalls tb res.toolCalls s.todo).2.1
                events := s.events ++ AgentEvent.tokenCost (tokenCostOf res.usage) ::
                  (List.map (AgentEvent.message ∘ ChatMessage.assistant) res.texts ++
                    AgentEvent.message (ChatMessage.ofToolCalls res.toolCalls) ::
                      List.map AgentEvent.message (resolveCalls tb res.toolCalls s.todo).1)
                sleeps := s.sleeps }, ?_, by simp⟩
      simp [step, hne', hpan, hc]
    · refine ⟨{ storedChat := setCaching s.storedChat
                chat := s.chat ++ (List.map ChatMessage.assistant res.texts ++
                  ChatMessage.ofToolCalls res.toolCalls
                    :: (resolveCalls tb res.toolCalls s.todo).1)
                running := s.running
                todo := (resolveCalls tb res.toolCalls s.todo).2.1
                events := s.events ++
                  (List.map (AgentEvent.message ∘ ChatMessage.assistant) res.texts ++
                    AgentEvent.message (ChatMessage.ofToolCalls res.toolCalls) ::
                      List.map AgentEvent.message (resolveCalls tb res.toolCalls s.todo).1)
                sleeps := s.sleeps }, ?_, by simp⟩
      simp [step, hne', hpan, hc]
  obtain ⟨s', hstep, hchat⟩ := hstepex
  exact ⟨(resolveCalls tb res.toolCalls s.todo).1,
    (resolveCalls tb res.toolCalls s.todo).2.1, s', hres, hall,
    hall.length_eq.symm, hstep, hchat, hseq⟩

theorem res1_toolCalls_ne : res1.toolCalls ≠ [] :=
  List.cons_ne_nil _ _

theorem res1_dispatchable : callsDispatchable tb1 res1.toolCalls := by
  intro call hc
  rcases List.mem_cons.mp hc with rfl | hc2
  · exact ⟨rfl, rfl⟩
  rcases List.mem_cons.mp hc2 with rfl | hc3
  · exact ⟨rfl, rfl⟩
  cases hc3

theorem tb1_idFaithful : idFaithful tb1 := by
  intro name f hf id args todo msg todo' hrun
  by_cases h : ("echo" == name) = true
  · simp only [tb1, ToolBox.find, List.find?, h] at hf
    cases hf
    simp only [echoFn] at hrun
    cases hrun
    exact ⟨"done", rfl⟩
  · simp only [tb1, ToolBox.find, List.find?, Bool.not_eq_true] at hf
    rw [Bool.of_not_eq_true h] at hf
    cases hf

/-- Witness for C1: the theorem applied to a concrete turn carrying two
calls to the registered echo tool. -/
theorem c1_tool_result_batch_witness :
    (res1.toolCalls ≠ [] ∧ callsDispatchable tb1 res1.toolCalls ∧ idFaithful tb1) ∧
    (∃ msgs todo1 s',
      resolveCalls tb1 res1.toolCalls st0.todo = (msgs, todo1, false) ∧
      List.Forall₂ (fun (call : ToolCall) (msg : ChatMessage) =>
        ∃ c, msg = ChatMessage.ofToolResponse call.callId c) res1.toolCalls msgs ∧
      msgs.length = res1.toolCalls.length ∧
      step tb1 st0 (BackendOutcome.ok res1) = StepRes.next s' ∧
      s'.chat = st0.chat ++ res1.texts.map ChatMessage.assistant
        ++ [ChatMessage.ofToolCalls res1.toolCalls] ++ msgs ∧
      (∀ call rest, res1.toolCalls = call :: rest →
        ∃ msg todoAfter, dispatchOne tb1 call st0.todo = some (msg, todoAfter) ∧
          msgs = msg :: (resolveCalls tb1 rest todoAfter).1)) :=
  ⟨⟨res1_toolCalls_ne, res1_dispatchable, tb1_idFaithful⟩,
    c1_tool_result_batch tb1 st0 res1 res1_toolCalls_ne res1_dispatchable tb1_idFaithful⟩

/-- C2: while a run is active, starting another run fails with
`AlreadyRunning` and leaves everything unchanged: `Agent::run` returns the
error immediately with the agent exactly as it was, and
`AgentRunner::start_cycle` rejects the start without enqueuing a command
when the runner's state flag is true. -/
theorem c2_already_running_guard (tb : ToolBox) (a : Agent)
    (script : List BackendOutcome) (q : List AgentCmd) (h : a.running = true) :
    Agent.runFn tb a script = AgentRunResult.alreadyRunning a ∧
    startCycle true q = (Except.error AiError.alreadyRunning, q) := by
  constructor
  · simp [Agent.runFn, h]
  · rfl

/-- Witness for C2 at a concrete busy agent and non-empty queue. -/
theorem c2_already_running_guard_witness :
    agentBusy.running = true ∧
    (Agent.runFn tb1 agentBusy script4 = AgentRunResult.alreadyRunning agentBusy ∧
      startCycle true [AgentCmd.runCmd]
        = (Except.error AiError.alreadyRunning, [AgentCmd.runCmd])) :=
  ⟨rfl, c2_already_running_guard tb1 agentBusy script4 [AgentCmd.runCmd] rfl⟩

/-- C3 counterexample: a backend failure that is not the `WebModelCall`
variant, yet whose textual description carries the rate-limit signature,
is handled by the catch-all arm: the run terminates fatally, no
`RateLimited` event is published and no back-off sleep happens — against
the claim's "if and only if the error's textual description carries the
rate-limit signature". -/
theorem c3_counterexample :
    isRateLimitText (GenaiError.otherVariant "rate limit exceeded").describe = true ∧
    step tb1 st0 (BackendOutcome.err (GenaiError.otherVariant "rate limit exceeded"))
      = StepRes.fatal
          (AiError.requestError (GenaiError.otherVariant "rate limit exceeded"))
          { st0 with storedChat := setCaching st0.storedChat, running := false } :=
  ⟨by decide, rfl⟩

/-- C3 (amended): the retry applies if and only if the backend failure is
the web-model-call variant whose inner web-client error text carries the
rate-limit signature; then exactly one `RateLimited` event is published,
one fixed back-off sleep is performed, and the same turn is re-entered
with the conversation unchanged (nothing appended, local copy and ledger
untouched). A web-model-call failure without the signature, and every
other failure variant (even one whose description carries the signature),
terminates the run with the failure surfaced to the caller. -/
theorem c3_rate_limit_retry (tb : ToolBox) (s : LoopSt) :
    (∀ mi we, isRateLimitText we = true →
      step tb s (BackendOutcome.err (GenaiError.webModelCall mi we))
        = StepRes.next { s with storedChat := setCaching s.storedChat
                                running := false
                                events := s.events ++ [AgentEvent.rateLimit]
                                sleeps := s.sleeps + 1 }) ∧
    (∀ mi we, isRateLimitText we = false →
      step tb s (BackendOutcome.err (GenaiError.webModelCall mi we))
        = StepRes.fatal (AiError.requestError (GenaiError.webModelCall mi we))
            { s with storedChat := setCaching s.storedChat, running := false }) ∧
    (∀ d, step tb s (BackendOutcome.err (GenaiError.otherVariant d))
      = StepRes.fatal (AiError.requestError (GenaiError.otherVariant d))
          { s with storedChat := setCaching s.storedChat, running := false }) := by
  refine ⟨?_, ?_, ?_⟩
  · intro mi we h
    simp [step, h]
  · intro mi we h
    simp [step, h]
  · intro d
    simp [step]

/-- Witness for C3 (amended) at a concrete rate-limited failure. -/
theorem c3_rate_limit_retry_witness :
    isRateLimitText "rate_limit reached" = true ∧
    step tb1 st0 (BackendOutcome.err (GenaiError.webModelCall "m" "rate_limit reached"))
      = StepRes.next { st0 with storedChat := setCaching st0.storedChat
                                running := false
                                events := st0.events ++ [AgentEvent.rateLimit]
                                sleeps := st0.sleeps + 1 } :=
  ⟨by decide, (c3_rate_limit_retry tb1 st0).1 "m" "rate_limit reached" (by decide)⟩

/-- C4 counterexample: a run whose first turn appends two messages to the
working copy (an assistant text and the open-ledger continuation nudge)
and whose second turn fails fatally ends with the stored conversation
still holding only the two entry messages — the messages appended during
the earlier turn are not retained in the agent's conversation. -/
theorem c4_counterexample :
    ∃ s', Agent.runFn tb1 agent4 script4
        = AgentRunResult.ran (RunOutcome.fatal
            (AiError.requestError (GenaiError.otherVariant "boom")) s') ∧
      s'.chat.length = 4 ∧
      s'.storedChat.map ChatMessage.stripOpts = agent4.chat.map ChatMessage.stripOpts ∧
      s'.storedChat.length = 2 ∧
      s'.storedChat.length ≠ s'.chat.length :=
  ⟨_, rfl, rfl, rfl, rfl, by decide⟩

/-- C4 (amended): when a backend turn fails with a fatal (non-rate-limit)
error, the run terminates with that error as a run-level error, and the
agent's stored conversation holds exactly the messages it held at entry
to the run (cache-hint options aside); messages appended during earlier
turns of the run live only in the discarded working copy (they were
published as events, not persisted to the agent). -/
theorem c4_fatal_conversation (tb : ToolBox) (a : Agent) (script : List BackendOutcome)
    (e : AiError) (s' : LoopSt)
    (h : Agent.runFn tb a script
      = AgentRunResult.ran (RunOutcome.fatal e s')) :
    s'.storedChat.map ChatMessage.stripOpts = a.chat.map ChatMessage.stripOpts := by
  by_cases hr : a.running = true
  · simp [Agent.runFn, hr] at h
  · simp only [Agent.runFn, hr, if_false, if_neg hr] at h
    injection h with h2
    obtain ⟨i1, _, _, _⟩ := runLoop_stored tb script a.initLoopSt
    exact i1 e s' h2

/-- Witness for C4 (amended) at the concrete two-turn failing run. -/
theorem c4_fatal_conversation_witness :
    ∃ s', Agent.runFn tb1 agent4 script4
        = AgentRunResult.ran (RunOutcome.fatal
            (AiError.requestError (GenaiError.otherVariant "boom")) s') ∧
      s'.storedChat.map ChatMessage.stripOpts = agent4.chat.map ChatMessage.stripOpts :=
  ⟨_, rfl, c4_fatal_conversation tb1 agent4 script4 _ _ rfl⟩

/-- C5: on a turn with zero tool calls, the loop consults the ledger:
`has_open_todos` is true iff some item's status is not completed; with an
open item the loop appends exactly one synthetic user continuation
message (after the turn's assistant texts) and re-enters the loop for
another turn; with no open item it stops, committing the working copy
with nothing appended beyond the turn's texts, whatever the remaining
script holds. -/
theorem c5_continuation (tb : ToolBox) (s : LoopSt) (res : ChatResponse)
    (h : res.toolCalls = []) :
    (hasOpenTodos s.todo = true ↔ ∃ e ∈ s.todo, e.2.status ≠ Status.completed) ∧
    (hasOpenTodos s.todo = true →
      ∃ s', step tb s (BackendOutcome.ok res) = StepRes.next s' ∧
        s'.chat = s.chat ++ res.texts.map ChatMessage.assistant ++ [continueNudge] ∧
        s'.todo = s.todo) ∧
    (hasOpenTodos s.todo = false →
      ∃ s', step tb s (BackendOutcome.ok res) = StepRes.finished s' ∧
        s'.chat = s.chat ++ res.texts.map ChatMessage.assistant ∧
        (∀ rest, runLoop tb s (BackendOutcome.ok res :: rest)
          = RunOutcome.finishedOk (commit s')) ∧
        (commit s').storedChat = s.chat ++ res.texts.map ChatMessage.assistant) := by
  refine ⟨?_, ?_, ?_⟩
  · simp [hasOpenTodos, List.any_eq_true]
  · intro ho
    by_cases hc : tokenCostOf res.usage > 0
    · refine ⟨{ storedChat := setCaching s.storedChat
                chat := s.chat ++ (List.map ChatMessage.assistant res.texts ++ [continueNudge])
                running := s.running
                todo := s.todo
                events := s.events ++ AgentEvent.tokenCost (tokenCostOf res.usage) ::
                  List.map (AgentEvent.message ∘ ChatMessage.assistant) res.texts
                sleeps := s.sleeps }, ?_, by simp, rfl⟩
      simp [step, h, resolveCalls, hc, ho]
    · refine ⟨{ storedChat := setCaching s.storedChat
                chat := s.chat ++ (List.map ChatMessage.assistant res.texts ++ [continueNudge])
                running := s.running
                todo := s.todo
                events := s.events ++
                  List.map (AgentEvent.message ∘ ChatMessage.assistant) res.texts
                sleeps := s.sleeps }, ?_, by simp, rfl⟩
      simp [step, h, resolveCalls, hc, ho]
  · intro ho
    by_cases hc : tokenCostOf res.usage > 0
    · have hstep : step tb s (BackendOutcome.ok res)
          = StepRes.finished
              { storedChat := setCaching s.storedChat
                chat := s.chat ++ List.map ChatMessage.assistant res.texts
                running := s.running
                todo := s.todo
                events := s.events ++ AgentEvent.tokenCost (tokenCostOf res.usage) ::
                  List.map (AgentEvent.message ∘ ChatMessage.assistant) res.texts
                sleeps := s.sleeps } := by
        simp [step, h, resolveCalls, hc, ho]
      refine ⟨_, hstep, rfl, ?_, by simp [commit]⟩
      intro rest
      simp only [runLoop]
      rw [hstep]
    · have hstep : step tb s (BackendOutcome.ok res)
          = StepRes.finished
              { storedChat := setCaching s.storedChat
                chat := s.chat ++ List.map ChatMessage.assistant res.texts
                running := s.running
                todo := s.todo
                events := s.events ++
                  List.map (AgentEvent.message ∘ ChatMessage.assistant) res.texts
                sleeps := s.sleeps } := by
        simp [step, h, resolveCalls, hc, ho]
      refine ⟨_, hstep, rfl, ?_, by simp [commit]⟩
      intro rest
      simp only [runLoop]
      rw [hstep]

/-- Witness for C5 at a concrete quiet turn over an open ledger. -/
theorem c5_continuation_witness :
    resText.toolCalls = [] ∧
    ((hasOpenTodos stOpen.todo = true ↔ ∃ e ∈ stOpen.todo, e.2.status ≠ Status.completed) ∧
     (hasOpenTodos stOpen.todo = true →
       ∃ s', step tb1 stOpen (BackendOutcome.ok resText) = StepRes.next s' ∧
         s'.chat = stOpen.chat ++ resText.texts.map ChatMessage.assistant ++ [continueNudge] ∧
         s'.todo = stOpen.todo) ∧
     (hasOpenTodos stOpen.todo = false →
       ∃ s', step tb1 stOpen (BackendOutcome.ok resText) = StepRes.finished s' ∧
         s'.chat = stOpen.chat ++ resText.texts.map ChatMessage.assistant ∧
         (∀ rest, runLoop tb1 stOpen (BackendOutcome.ok resText :: rest)
           = RunOutcome.finishedOk (commit s')) ∧
         (commit s').storedChat = stOpen.chat ++ resText.texts.map ChatMessage.assistant)) :=
  ⟨rfl, c5_continuation tb1 stOpen resText rfl⟩

theorem writeToolRun_frame (toolId : String) (args : ToolArgs) (fs : Fs)
    (reply : Option Bool) (h : reply ≠ some true) :
    (writeToolRun toolId args fs reply).fs = fs ∧
    ∃ e, (writeToolRun toolId args fs reply).result = Except.error e := by
  unfold writeToolRun
  cases hp : args.getString "path" with
  | error e => exact ⟨rfl, e, rfl⟩
  | ok p =>
    cases hc : args.getString "content" with
    | error e => exact ⟨rfl, e, rfl⟩
    | ok c =>
      cases reply with
      | none => exact ⟨rfl, _, rfl⟩
      | some b =>
        cases b with
        | false => exact ⟨rfl, _, rfl⟩
        | true => exact absurd rfl h

theorem writeToolRun_decline (toolId : String) (args : ToolArgs) (fs : Fs)
    (p c : String) (hp : args.getString "path" = Except.ok p)
    (hc : args.getString "content" = Except.ok c) :
    (writeToolRun toolId args fs (some false)).result
      = Except.error (AiError.toolFailed "user declined the edit request") ∧
    (writeToolRun toolId args fs none).result = Except.error AiError.tokioRecvError := by
  unfold writeToolRun
  rw [hp, hc]
  exact ⟨rfl, rfl⟩

theorem editToolRun_frame (toolId : String) (args : ToolArgs) (fs : Fs)
    (reply : Option Bool) (h : reply ≠ some true) :
    (editToolRun toolId args fs reply).fs = fs ∧
    ∃ e, (editToolRun toolId args fs reply).result = Except.error e := by
  unfold editToolRun
  cases hp : args.getString "path" with
  | error e => exact ⟨rfl, e, rfl⟩
  | ok p =>
    dsimp only
    cases ho : args.getString "old_string" with
    | error e => exact ⟨rfl, e, rfl⟩
    | ok olds =>
      dsimp only
      cases hn : args.getString "new_string" with
      | error e => exact ⟨rfl, e, rfl⟩
      | ok news =>
        dsimp only
        cases hr : fs.readF p with
        | none => exact ⟨rfl, _, rfl⟩
        | some oldContent =>
          dsimp only
          cases hcon : strContains oldContent olds with
          | false => exact ⟨rfl, _, rfl⟩
          | true =>
            cases reply with
            | none => exact ⟨rfl, _, rfl⟩
            | some b =>
              cases b with
              | false => exact ⟨rfl, _, rfl⟩
              | true => exact absurd rfl h

theorem editToolRun_decline (toolId : String) (args : ToolArgs) (fs : Fs)
    (p olds news oldContent : String)
    (hp : args.getString "path" = Except.ok p)
    (ho : args.getString "old_string" = Except.ok olds)
    (hn : args.getString "new_string" = Except.ok news)
    (hread : fs.readF p = some oldContent)
    (hcon : strContains oldContent olds = true) :
    (editToolRun toolId args fs (some false)).result
      = Except.error (AiError.toolFailed "user declined the edit request") ∧
    (editToolRun toolId args fs none).result = Except.error AiError.tokioRecvError := by
  unfold editToolRun
  rw [hp]
  dsimp only
  rw [ho]
  dsimp only
  rw [hn]
  dsimp only
  rw [hread]
  dsimp only
  rw [hcon]
  exact ⟨rfl, rfl⟩

/-- C6: for the permission-gated `write` and `edit` tools, whenever the
permission responder does not answer `true` — it answers `false`, or it
is dropped without replying — the tool returns a failed result and the
underlying filesystem write is never performed: the file system is
unchanged and the result is an error (on an explicit `false` with
well-formed arguments, the error is the decline message "user declined
the edit request"; on a dropped responder, the `RecvError` of the closed
oneshot channel, which the waiter receives immediately rather than
blocking, and which is never read as success). -/
theorem c6_permission_gate
    (toolIdW : String) (aW : ToolArgs) (fsW : Fs) (rW : Option Bool) (hW : rW ≠ some true)
    (toolIdE : String) (aE : ToolArgs) (fsE : Fs) (rE : Option Bool) (hE : rE ≠ some true) :
    ((writeToolRun toolIdW aW fsW rW).fs = fsW ∧
      (∃ e, (writeToolRun toolIdW aW fsW rW).result = Except.error e) ∧
      (∀ p c, aW.getString "path" = Except.ok p → aW.getString "content" = Except.ok c →
        (writeToolRun toolIdW aW fsW (some false)).result
          = Except.error (AiError.toolFailed "user declined the edit request") ∧
        (writeToolRun toolIdW aW fsW none).result = Except.error AiError.tokioRecvError)) ∧
    ((editToolRun toolIdE aE fsE rE).fs = fsE ∧
      (∃ e, (editToolRun toolIdE aE fsE rE).result = Except.error e) ∧
      (∀ p olds news oldContent,
        aE.getString "path" = Except.ok p → aE.getString "old_string" = Except.ok olds →
        aE.getString "new_string" = Except.ok news → fsE.readF p = some oldContent →
        strContains oldContent olds = true →
        (editToolRun toolIdE aE fsE (some false)).result
          = Except.error (AiError.toolFailed "user declined the edit request") ∧
        (editToolRun toolIdE aE fsE none).result = Except.error AiError.tokioRecvError)) := by
  obtain ⟨wf1, wf2⟩ := writeToolRun_frame toolIdW aW fsW rW hW
  obtain ⟨ef1, ef2⟩ := editToolRun_frame toolIdE aE fsE rE hE
  exact ⟨⟨wf1, wf2, fun p c hp hc => writeToolRun_decline toolIdW aW fsW p c hp hc⟩,
    ⟨ef1, ef2, fun p olds news oldContent hp ho hn hread hcon =>
      editToolRun_decline toolIdE aE fsE p olds news oldContent hp ho hn hread hcon⟩⟩

/-- Witness for C6: a declined write and a dropped-responder edit at
concrete argument bags, over a concrete file system. -/
theorem c6_permission_gate_witness :
    ((some false : Option Bool) ≠ some true ∧ (none : Option Bool) ≠ some true) ∧
    (((writeToolRun "t1" argsW fs1 (some false)).fs = fs1 ∧
      (∃ e, (writeToolRun "t1" argsW fs1 (some false)).result = Except.error e) ∧
      (∀ p c, argsW.getString "path" = Except.ok p →
        argsW.getString "content" = Except.ok c →
        (writeToolRun "t1" argsW fs1 (some false)).result
          = Except.error (AiError.toolFailed "user declined the edit request") ∧
        (writeToolRun "t1" argsW fs1 none).result = Except.error AiError.tokioRecvError)) ∧
    ((editToolRun "t2" argsE fs1 none).fs = fs1 ∧
      (∃ e, (editToolRun "t2" argsE fs1 none).result = Except.error e) ∧
      (∀ p olds news oldContent,
        argsE.getString "path" = Except.ok p →
        argsE.getString "old_string" = Except.ok olds →
        argsE.getString "new_string" = Except.ok news → fs1.readF p = some oldContent →
        strContains oldContent olds = true →
        (editToolRun "t2" argsE fs1 (some false)).result
          = Except.error (AiError.toolFailed "user declined the edit request") ∧
        (editToolRun "t2" argsE fs1 none).result = Except.error AiError.tokioRecvError))) :=
  ⟨⟨by decide, by decide⟩,
    c6_permission_gate "t1" argsW fs1 (some false) (by decide)
      "t2" argsE fs1 none (by decide)⟩

/-- C7 counterexample: dispatching a call whose name is not in the
registry, or whose argument bag is not a JSON object, panics the run loop
(the two `unwrap`s of `Agent::run` lines 184-186) instead of producing a
tool-result error payload: `dispatchOne` yields `none` (the embedded
panic) and the step ends `panicked`, not `next`. -/
theorem c7_counterexample :
    dispatchOne tb1 ⟨"id1", "nope", JValue.obj []⟩ [] = none ∧
    dispatchOne tb1 ⟨"id1", "echo", JValue.null⟩ [] = none ∧
    ∃ s', step tb1 st0 (BackendOutcome.ok resUnknown) = StepRes.panicked s' :=
  ⟨rfl, rfl, ⟨_, rfl⟩⟩

/-- C7 (amended): for a call whose name is registered and whose argument
bag is a JSON object, dispatch never panics: the call always yields a
result message; a handler failure is converted into a tool-result error
payload carrying the rendered error; and a typed field absent from the
bag fails inside the handler with `MissingArgument(key)` (which that
conversion turns into such a payload). A name not present in the
registry, or an argument bag that is not a key-value map, panics the
run loop. -/
theorem c7_dispatch_no_panic (tb : ToolBox) (call : ToolCall) (todo : Todo)
    (f : ToolFn) (args : ToolArgs)
    (hf : tb.find call.fnName = some f)
    (hp : parseArgMap call.fnArguments = some args) :
    (∃ msg todo', dispatchOne tb call todo = some (msg, todo')) ∧
    (∀ e todo', f call.callId args todo = (Except.error e, todo') →
      dispatchOne tb call todo
        = some (ChatMessage.ofToolResponse call.callId e.describe, todo')) ∧
    (∀ key, ToolArgs.find args key = none →
      args.getString key = Except.error (AiError.missingArgument key)) := by
  refine ⟨?_, ?_, ?_⟩
  · cases hrun : f call.callId args todo with
    | mk r todo' =>
      cases r with
      | ok msg => exact ⟨msg, todo', by simp [dispatchOne, hf, hp, hrun]⟩
      | error e =>
        exact ⟨ChatMessage.ofToolResponse call.callId e.describe, todo', by
          simp [dispatchOne, hf, hp, hrun]⟩
  · intro e todo' hrun
    simp [dispatchOne, hf, hp, hrun]
  · intro key hk
    simp [ToolArgs.getString, hk]

/-- Witness for C7 (amended) at the registered echo tool. -/
theorem c7_dispatch_no_panic_witness :
    tb1.find call1.fnName = some echoFn ∧
    parseArgMap call1.fnArguments = some [] ∧
    ((∃ msg todo', dispatchOne tb1 call1 ([] : Todo) = some (msg, todo')) ∧
     (∀ e todo', echoFn call1.callId ([] : ToolArgs) ([] : Todo) = (Except.error e, todo') →
       dispatchOne tb1 call1 ([] : Todo)
         = some (ChatMessage.ofToolResponse call1.callId e.describe, todo')) ∧
     (∀ key, ToolArgs.find ([] : ToolArgs) key = none →
       ToolArgs.getString ([] : ToolArgs) key
         = Except.error (AiError.missingArgument key))) :=
  ⟨rfl, rfl, c7_dispatch_no_panic tb1 call1 ([] : Todo) echoFn ([] : ToolArgs) rfl rfl⟩

/-- C8 counterexample: a rate-limited backend call clears the running flag
*before* the retry (`self.running = false` precedes the signature check),
so the loop re-enters the next turn of the same run with the flag false —
against the claim that the flag stays true until the run terminates. -/
theorem c8_counterexample :
    st0.running = true ∧
    ∃ s', step tb1 st0 (BackendOutcome.err (GenaiError.webModelCall "m" "rate_limit"))
        = StepRes.next s' ∧
      s'.running = false :=
  ⟨rfl, _, rfl, rfl⟩

/-- C8 (amended): the running flag, set by the entry guard, is preserved
by every successful turn and by the continuation nudge, but every
backend-call failure clears it before anything else — so a retried
(rate-limited) turn and everything after it runs with the flag false, a
fatal return leaves it false, and a normal/timeout/abort termination
passes it unchanged to the epilogue, which clears it. -/
theorem c8_running_flag (tb : ToolBox) (s : LoopSt) (o : BackendOutcome) :
    (∀ s', step tb s o = StepRes.next s' → s'.running = (s.running && !o.isErr)) ∧
    (∀ e s', step tb s o = StepRes.fatal e s' → s'.running = false) ∧
    (∀ s', step tb s o = StepRes.finished s' →
      s'.running = s.running ∧ (commit s').running = false) := by
  cases o with
  | timeout =>
    refine ⟨?_, ?_, ?_⟩
    · intro s' h; simp [step] at h
    · intro e s' h; simp [step] at h
    · intro s' h
      simp only [step] at h
      cases h
      exact ⟨rfl, rfl⟩
  | abort =>
    refine ⟨?_, ?_, ?_⟩
    · intro s' h; simp [step] at h
    · intro e s' h; simp [step] at h
    · intro s' h
      simp only [step] at h
      cases h
      exact ⟨rfl, rfl⟩
  | err e =>
    cases e with
    | webModelCall mi we =>
      cases hrl : isRateLimitText we with
      | true =>
        refine ⟨?_, ?_, ?_⟩
        · intro s' h
          simp only [step, hrl] at h
          cases h
          simp [BackendOutcome.isErr]
        · intro e' s' h; simp [step, hrl] at h
        · intro s' h; simp [step, hrl] at h
      | false =>
        refine ⟨?_, ?_, ?_⟩
        · intro s' h; simp [step, hrl] at h
        · intro e' s' h
          simp only [step, hrl] at h
          cases h
          rfl
        · intro s' h; simp [step, hrl] at h
    | otherVariant d =>
      refine ⟨?_, ?_, ?_⟩
      · intro s' h; simp [step] at h
      · intro e' s' h
        simp only [step] at h
        cases h
        rfl
      · intro s' h; simp [step] at h
  | ok res =>
    refine ⟨?_, ?_, ?_⟩
    · intro s' h
      simp only [step] at h
      split at h <;> split at h <;> split at h <;> (try split at h) <;>
        first
          | (cases h; simp [BackendOutcome.isErr])
          | cases h
    · intro e' s' h
      simp only [step] at h
      split at h <;> split at h <;> split at h <;> (try split at h) <;> cases h
    · intro s' h
      simp only [step] at h
      split at h <;> split at h <;> split at h <;> (try split at h) <;>
        first
          | (cases h; exact ⟨rfl, rfl⟩)
          | cases h

/-- Witness for C8 (amended) at a concrete successful quiet turn. -/
theorem c8_running_flag_witness :
    ∃ s', step tb1 stOpen (BackendOutcome.ok resText) = StepRes.next s' ∧
      s'.running = (stOpen.running && !(BackendOutcome.ok resText).isErr) :=
  ⟨_, rfl, (c8_running_flag tb1 stOpen (BackendOutcome.ok resText)).1 _ rfl⟩

/-- C9: persisting a session, restoring it and persisting again yields an
identical persisted record (conversation, ledger snapshot, model
identifier, token and money cost, pending input), for every session whose
text area is in a reachable state (a text area always holds at least one
line). -/
theorem c9_save_load_roundtrip (s : Session) (h : s.textarea ≠ []) :
    saveSession (loadSession (saveSession s)) = saveSession s := by
  have hne : s.textarea.isEmpty = false := by
    cases ht : s.textarea with
    | nil => exact absurd ht h
    | cons a l => rfl
  simp [saveSession, loadSession, textAreaNew, hne]

/-- Witness for C9 at a concrete session. -/
theorem c9_save_load_roundtrip_witness :
    session1.textarea ≠ [] ∧
    saveSession (loadSession (saveSession session1)) = saveSession session1 :=
  ⟨by decide, c9_save_load_roundtrip session1 (by decide)⟩

/-- C10: `Agent::run` never appends to or removes from the agent's stored
conversation: per-turn appends go to the working copy cloned at entry,
which replaces the stored conversation only when the loop terminates by
break (normal stop, timeout or abort); on an error return — and while
the script is still in flight, and at a dispatch panic — the stored
conversation holds exactly the entry messages, with at most the
per-message cache-hint options differing. -/
theorem c10_run_frame (tb : ToolBox) (a : Agent) (script : List BackendOutcome) :
    (∀ e s', Agent.runFn tb a script = AgentRunResult.ran (RunOutcome.fatal e s') →
      s'.storedChat.map ChatMessage.stripOpts = a.chat.map ChatMessage.stripOpts) ∧
    (∀ s', Agent.runFn tb a script = AgentRunResult.ran (RunOutcome.panicked s') →
      s'.storedChat.map ChatMessage.stripOpts = a.chat.map ChatMessage.stripOpts) ∧
    (∀ s', Agent.runFn tb a script = AgentRunResult.ran (RunOutcome.scriptExhausted s') →
      s'.storedChat.map ChatMessage.stripOpts = a.chat.map ChatMessage.stripOpts) ∧
    (∀ s', Agent.runFn tb a script = AgentRunResult.ran (RunOutcome.finishedOk s') →
      s'.storedChat = s'.chat) := by
  by_cases hr : a.running = true
  · refine ⟨?_, ?_, ?_, ?_⟩
    · intro e s' h; simp [Agent.runFn, hr] at h
    · intro s' h; simp [Agent.runFn, hr] at h
    · intro s' h; simp [Agent.runFn, hr] at h
    · intro s' h; simp [Agent.runFn, hr] at h
  · obtain ⟨i1, i2, i3, i4⟩ := runLoop_stored tb script a.initLoopSt
    refine ⟨?_, ?_, ?_, ?_⟩
    · intro e s' h
      simp only [Agent.runFn, if_neg hr] at h
      injection h with h2
      exact i1 e s' h2
    · intro s' h
      simp only [Agent.runFn, if_neg hr] at h
      injection h with h2
      exact i2 s' h2
    · intro s' h
      simp only [Agent.runFn, if_neg hr] at h
      injection h with h2
      exact i3 s' h2
    · intro s' h
      simp only [Agent.runFn, if_neg hr] at h
      injection h with h2
      exact (i4 s' h2).1

/-- Witness for C10: a run whose single scripted turn dispatches two tool
calls and is then still in flight — the stored conversation still holds
exactly the entry messages while the working copy has grown. -/
theorem c10_run_frame_witness :
    ∃ s', Agent.runFn tb1 agent4 script10
        = AgentRunResult.ran (RunOutcome.scriptExhausted s') ∧
      s'.chat.length = 6 ∧
      s'.storedChat.map ChatMessage.stripOpts = agent4.chat.map ChatMessage.stripOpts :=
  ⟨_, rfl, rfl, (c10_run_frame tb1 agent4 script10).2.2.1 _ rfl⟩

end Blitzdenk
